import Mathlib

/-!
# Shallow embedding of `csvPlot.py`

`csvPlot.py` is a single-file command-line plotting script.  This file embeds
the parts of it that carry behaviour worth verifying:

* `read_one_file` / `read_in_data` — the data-ingestion routine
  (`read_in_data`, source lines 80–115): split the file on newlines, drop the
  segment after the last newline, reject files with an empty interior line
  (Python evaluates `row[0]` on every line, so an empty line raises an
  uncaught `IndexError`), drop `@`/`#` comment lines, tokenize each remaining
  line, and parse the columns as floats.  The error column is parsed only if
  the per-file error flag is the string `"y"`, and any failure there is
  swallowed into an all-zero sequence (the bare `except:` at line 109).
* `applyInvplot` / `recip` — the `--invplot` reciprocal transform
  (source lines 176–180).
* `scale_data` / `applyScale` — the `-sx`/`-sy` per-file scaling
  (source lines 119–122 and 183–187).
* `renderSeries`, `defaultColor`, `defaultEcolor` — the per-series drawing
  mode selection and the default palettes (source lines 149–153 and 192–204).
* `splineOverlay` — the `--fit` smoothing-spline overlay (source
  lines 205–210); the scipy spline itself is external, so the embedding
  records the data handed to it and the evaluation grid.

Numbers are embedded as exact rationals; where IEEE division by zero matters
(`1./0` in numpy yields `+inf`, with a warning but no exception) values are
wrapped in `RVal`, which adjoins an infinity.  Fallible steps (Python
exceptions that abort the program) are embedded as `Option`, with `none`
standing for an uncaught exception.
-/

namespace CsvPlot

/-- Pipeline values: a finite rational or (positive) infinity.  Infinity
arises from numpy's `1./0`; `NaN` cannot arise from the operations the
claims cover, so it is not modelled. -/
inductive RVal
  | fin : ℚ → RVal
  | posInf : RVal
deriving DecidableEq

/-- numpy's `1./v`: the reciprocal, with `1./0 = +inf` (a warning, not an
error, in numpy) and `1./inf = 0`. -/
def recip : RVal → RVal
  | .fin q => if q = 0 then .posInf else .fin q⁻¹
  | .posInf => .fin 0

/-- Python's `s.split(chr(10))`: split on every newline; the number of pieces
is one more than the number of newlines, and pieces may be empty. -/
def splitLines : List Char → List (List Char)
  | [] => [[]]
  | c :: rest =>
    if c = '\n' then [] :: splitLines rest
    else
      match splitLines rest with
      | [] => [[c]]
      | l :: ls => (c :: l) :: ls

/-- Source line 97, `data[i].split(chr(10))[:-1]`: the line list the parser
works on — everything after the file's last newline is dropped. -/
def rawLines (content : List Char) : List (List Char) :=
  (splitLines content).dropLast

/-- Source lines 98–99: the two comprehensions filtering out `@` and `#`
lines.  Python evaluates `row[0]` on every row, so an empty row raises an
uncaught `IndexError`, embedded as `none`. -/
def strip_comments (rows : List (List Char)) : Option (List (List Char)) :=
  if rows.all (fun r => r ≠ []) then
    some ((rows.filter (fun r => r.head? ≠ some '@')).filter
      (fun r => r.head? ≠ some '#'))
  else none

/-- Python's argument-free `str.split()`: split on runs of whitespace,
discarding empty tokens. -/
def splitWs : List Char → List (List Char)
  | [] => []
  | c :: rest =>
    if c.isWhitespace then
      splitWs rest
    else
      match rest, splitWs rest with
      | [], _ => [[c]]
      | d :: _, r =>
        if d.isWhitespace then [c] :: r
        else
          match r with
          | [] => [[c]]
          | t :: ts => (c :: t) :: ts

/-- Source line 102, `row.replace(",", " ").split()`. -/
def tokenize (row : List Char) : List (List Char) :=
  splitWs (row.map (fun c => if c = ',' then ' ' else c))

/-- The natural number denoted by a list of decimal digits. -/
def natOfDigits (cs : List Char) : ℕ :=
  cs.foldl (fun n c => 10 * n + (c.toNat - 48)) 0

/-- Exponent suffix of a Python float literal: empty, or `e`/`E`, an optional
sign and a nonempty digit string, scaling the mantissa by the power of ten. -/
def parseExpPart (m : ℚ) (cs : List Char) : Option ℚ :=
  match cs with
  | [] => some m
  | c :: rest =>
    if c = 'e' ∨ c = 'E' then
      let sr : Bool × List Char :=
        match rest with
        | '+' :: r => (false, r)
        | '-' :: r => (true, r)
        | r => (false, r)
      let ds := sr.2.takeWhile Char.isDigit
      let rest3 := sr.2.dropWhile Char.isDigit
      if ds = [] ∨ rest3 ≠ [] then none
      else if sr.1 then some (m / 10 ^ natOfDigits ds)
      else some (m * 10 ^ natOfDigits ds)
    else none

/-- Unsigned part of a Python float literal: digits, an optional point with
further digits (at least one digit in total), then an optional exponent. -/
def parseUnsigned (cs : List Char) : Option ℚ :=
  let ip := cs.takeWhile Char.isDigit
  let rest := cs.dropWhile Char.isDigit
  match rest with
  | '.' :: rest2 =>
    let fp := rest2.takeWhile Char.isDigit
    let rest3 := rest2.dropWhile Char.isDigit
    if ip = [] ∧ fp = [] then none
    else parseExpPart ((natOfDigits ip : ℚ) + (natOfDigits fp : ℚ) / 10 ^ fp.length) rest3
  | _ =>
    if ip = [] then none
    else parseExpPart (natOfDigits ip : ℚ) rest

/-- Python's builtin `float(token)` on finite decimal literals: optional
surrounding whitespace, optional sign, decimal mantissa, optional exponent.
(`inf`/`nan` spellings and digit-group underscores are not modelled; no
claim depends on them.)  `none` embeds the uncaught `ValueError`. -/
def parseFloat (cs : List Char) : Option ℚ :=
  let cs1 := cs.dropWhile Char.isWhitespace
  let cs2 := (cs1.reverse.dropWhile Char.isWhitespace).reverse
  match cs2 with
  | '+' :: rest => parseUnsigned rest
  | '-' :: rest => (parseUnsigned rest).map (fun q => -q)
  | rest => parseUnsigned rest

/-- A Python list comprehension `[f(a) for a in l]` whose body may raise:
`none` as soon as any element raises. -/
def mapO {α β : Type} (f : α → Option β) : List α → Option (List β)
  | [] => some []
  | a :: as =>
    match f a, mapO f as with
    | some b, some bs => some (b :: bs)
    | _, _ => none

/-- The (x, y, error) columns ingested for one input file. -/
structure SeriesData where
  xs : List ℚ
  ys : List ℚ
  es : List ℚ
deriving DecidableEq

/-- Loop body of `read_in_data` (source lines 95–113) for one file:
line splitting and `[:-1]`, comment stripping, tokenization, then
`float(row[0])` / `float(row[1])` for x and y; the error column
`float(row[2])` is read only when the flag is `"y"`, inside a
`try`/bare-`except` that falls back to `[0.]*len(data[i])`. -/
def read_one_file (content : List Char) (errFlag : String) : Option SeriesData :=
  match strip_comments (rawLines content) with
  | none => none
  | some rows =>
    let toks := rows.map tokenize
    match mapO (fun r => (r.get? 0).bind parseFloat) toks,
          mapO (fun r => (r.get? 1).bind parseFloat) toks with
    | some xs, some ys =>
      let es :=
        if errFlag = "y" then
          match mapO (fun r => (r.get? 2).bind parseFloat) toks with
          | some l => l
          | none => List.replicate toks.length 0
        else List.replicate toks.length 0
      some ⟨xs, ys, es⟩
    | _, _ => none

/-- Function `read_in_data(files, e)` (source lines 80–115): the loop over all files;
`e[i]` itself raises `IndexError` when the flag list is shorter than the
file list. -/
def read_in_data (contents : List (List Char)) (e : List String) :
    Option (List SeriesData) :=
  mapO (fun p => (e.get? p.1).bind (fun flag => read_one_file p.2 flag))
    contents.enum

/-- Function `scale_data(x, s)` (source lines 119–122): `x[i] *= s[i]` for each series
`i`; with numpy arrays `*=` multiplies every element, and a too-short factor
list raises an uncaught `IndexError` (`none`). -/
def scale_data : List (List ℚ) → List ℚ → Option (List (List ℚ))
  | [], _ => some []
  | _ :: _, [] => none
  | xi :: xs, si :: ss =>
    (scale_data xs ss).map (fun rest => xi.map (fun q => q * si) :: rest)

/-- Source lines 185–187: when `-sy` is given, both the y series and the
error series are scaled by the same per-file factors. -/
def applyScale (sy : Option (List ℚ)) (y e : List (List ℚ)) :
    Option (List (List ℚ) × List (List ℚ)) :=
  match sy with
  | none => some (y, e)
  | some s =>
    match scale_data y s, scale_data e s with
    | some y2, some e2 => some (y2, e2)
    | _, _ => none

/-- Source lines 176–180: the `--invplot` transform.  Two independent `if`s:
`x = 1./x` when the flag is `x` or `b`; `y = 1./y` and `e = 1./e` when the
flag is `y` or `b`. -/
def applyInvplot (inv : String) (x y e : List (List RVal)) :
    List (List RVal) × List (List RVal) × List (List RVal) :=
  let x2 := if inv = "x" ∨ inv = "b" then x.map (List.map recip) else x
  let y2 := if inv = "y" ∨ inv = "b" then y.map (List.map recip) else y
  let e2 := if inv = "y" ∨ inv = "b" then e.map (List.map recip) else e
  (x2, y2, e2)

/-- The fixed default color palette (source line 150). -/
def colorPalette : List String :=
  ["black", "red", "blue", "green", "purple", "magenta", "cyan", "orange", "yellow"]

/-- The fixed default error-bar color palette (source line 153). -/
def ecolorPalette : List String :=
  ["magenta", "blue", "cyan", "green", "orange", "red"]

/-- Source line 150: `color = [...][0:len(files)]` when `--color` is absent. -/
def defaultColor (nFiles : ℕ) : List String :=
  colorPalette.take nFiles

/-- Source line 153: `ecolor = [...][0:len(files)]` when `--ecolor` is absent. -/
def defaultEcolor (nFiles : ℕ) : List String :=
  ecolorPalette.take nFiles

/-- Which drawing primitive the render loop reaches for a series. -/
inductive DrawMode
  | errorbar
  | histbar
  | line
deriving DecidableEq

/-- The drawing call for one series, keeping the fields the claims are
about: the primitive chosen, `color[i]`, `ecolor[i]` (error-bar and
histogram modes only) and the bar width (histogram mode only). -/
structure DrawCmd where
  mode : DrawMode
  color : String
  ecolor : Option String
  barWidth : Option ℚ
deriving DecidableEq

/-- Iteration `i` of the render loop (source lines 192–204):
`plt.errorbar` when `errplt[i] == "y"`, else `plt.bar` when the global
`--hist` flag is `"y"`, else `plt.plot`; every list subscript that Python
evaluates in the chosen call is embedded as a `get?`, so an out-of-range
style list makes the iteration raise (`none`).  The remaining style lists
(labels, linewidth, linestyle, marker, markersize) default to per-file
broadcasts and are not part of any claim, so they are not recorded. -/
def renderSeries (errplt : List String) (histplt : String)
    (color ecolor : List String) (x y e : List (List ℚ)) (i : ℕ) :
    Option DrawCmd :=
  match errplt.get? i with
  | none => none
  | some ef =>
    if ef = "y" then
      match x.get? i, y.get? i, e.get? i, color.get? i, ecolor.get? i with
      | some _, some _, some _, some c, some ec =>
        some ⟨.errorbar, c, some ec, none⟩
      | _, _, _, _, _ => none
    else if histplt = "y" then
      match x.get? i, y.get? i, color.get? i, ecolor.get? i with
      | some xi, some _, some c, some ec =>
        match xi.get? 0, xi.get? 1 with
        | some x0, some x1 => some ⟨.histbar, c, some ec, some |x0 - x1|⟩
        | _, _ => none
      | _, _, _, _ => none
    else
      match x.get? i, y.get? i, color.get? i with
      | some _, some _, some c => some ⟨.line, c, none, none⟩
      | _, _, _ => none

/-- numpy `x[i].min()`: the least element of an array (error on empty). -/
def listMin : List ℚ → Option ℚ
  | [] => none
  | a :: as =>
    match listMin as with
    | none => some a
    | some m => some (min a m)

/-- numpy `x[i].max()`: the greatest element of an array (error on empty). -/
def listMax : List ℚ → Option ℚ
  | [] => none
  | a :: as =>
    match listMax as with
    | none => some a
    | some m => some (max a m)

/-- Function `np.linspace(a, b, num)`: `num` points `a + k*(b-a)/(num-1)`. -/
def linspace (a b : ℚ) (num : ℕ) : List ℚ :=
  if num = 1 then [a]
  else (List.range num).map (fun k : ℕ => a + (b - a) * (k : ℚ) / ((num : ℚ) - 1))

/-- Comparison by x-coordinate, the order `np.argsort(x[i])` sorts by. -/
def leX (p q : ℚ × ℚ) : Prop := p.1 ≤ q.1

instance : DecidableRel leX := fun p q => inferInstanceAs (Decidable (p.1 ≤ q.1))

instance : IsTotal (ℚ × ℚ) leX := ⟨fun a b => le_total a.1 b.1⟩

instance : IsTrans (ℚ × ℚ) leX := ⟨fun _ _ _ hab hbc => le_trans hab hbc⟩

/-- Source lines 207–208: `order = np.argsort(x[i])` and the reindexing
`x[i][order]`, `y[i][order]` — the point pairs sorted by x-coordinate. -/
def sortByX (l : List (ℚ × ℚ)) : List (ℚ × ℚ) :=
  List.insertionSort leX l

/-- What the `--fit` branch hands to the plotting library: the sorted points
given to `UnivariateSpline`, the smoothing factor, the evaluation grid, and
the line style and color of the overlay. -/
structure SplineCmd where
  pts : List (ℚ × ℚ)
  s : ℚ
  evalXs : List ℚ
  linestyle : String
  color : String

/-- Source lines 205–210: the spline overlay for one series.  `some none`
means the branch was skipped (`fit[i] >= 0` false); `some (some cmd)` is the
overlay drawn; the outer `none` is the uncaught error when the series is
empty. -/
def splineOverlay (fitFactor : ℚ) (c : String) (xi yi : List ℚ) :
    Option (Option SplineCmd) :=
  if 0 ≤ fitFactor then
    match listMin xi, listMax xi with
    | some a, some b =>
      some (some ⟨sortByX (xi.zip yi), fitFactor, linspace a b 100, "-", c⟩)
    | _, _ => none
  else some none

/-! ## Helper lemmas -/

theorem mapO_length {α β : Type} (f : α → Option β) :
    ∀ (l : List α) (l2 : List β), mapO f l = some l2 → l2.length = l.length := by
  intro l
  induction l with
  | nil => intro l2 h; simp only [mapO] at h; cases h; rfl
  | cons a as ih =>
    intro l2 h
    simp only [mapO] at h
    cases hfa : f a with
    | none => rw [hfa] at h; simp at h
    | some b =>
      rw [hfa] at h
      cases hrest : mapO f as with
      | none => rw [hrest] at h; simp at h
      | some bs =>
        rw [hrest] at h
        cases h
        simp [ih bs hrest]

theorem splitLines_ne_nil (cs : List Char) : splitLines cs ≠ [] := by
  cases cs with
  | nil => simp [splitLines]
  | cons c rest =>
    simp only [splitLines]
    split
    · simp
    · split <;> simp

theorem splitLines_append_newline (a b : List Char) :
    splitLines (a ++ '\n' :: b) = splitLines a ++ splitLines b := by
  induction a with
  | nil => simp [splitLines]
  | cons c a2 ih =>
    by_cases hc : c = '\n'
    · subst hc
      simp [splitLines, ih]
    · obtain ⟨l, ls, hl⟩ : ∃ l ls, splitLines a2 = l :: ls := by
        cases h : splitLines a2 with
        | nil => exact absurd h (splitLines_ne_nil a2)
        | cons l ls => exact ⟨l, ls, rfl⟩
      simp [splitLines, hc, ih, hl]

theorem splitLines_no_newline (c : List Char) (h : '\n' ∉ c) :
    splitLines c = [c] := by
  induction c with
  | nil => rfl
  | cons d c2 ih =>
    have hd : d ≠ '\n' := fun hdn => h (hdn ▸ List.mem_cons_self d c2)
    have hc2 : '\n' ∉ c2 := fun hm => h (List.mem_cons_of_mem d hm)
    simp only [splitLines, if_neg hd, ih hc2]

theorem scale_data_some :
    ∀ (xss : List (List ℚ)) (s : List ℚ), xss.length ≤ s.length →
      scale_data xss s =
        some (List.zipWith (fun xi si => xi.map (fun q => q * si)) xss s) := by
  intro xss
  induction xss with
  | nil => intro s _; simp [scale_data]
  | cons xi xs ih =>
    intro s hs
    cases s with
    | nil => simp at hs
    | cons si ss =>
      simp only [List.length_cons, Nat.add_le_add_iff_right] at hs
      simp [scale_data, ih ss hs, List.zipWith]

theorem scale_data_get? :
    ∀ (x : List (List ℚ)) (s : List ℚ) (x2 : List (List ℚ)),
      scale_data x s = some x2 → ∀ i : ℕ,
        x2.get? i = (x.get? i).bind
          (fun xi => (s.get? i).map (fun si => xi.map (fun q => q * si))) := by
  intro x
  induction x with
  | nil => intro s x2 h i; simp only [scale_data] at h; cases h; simp
  | cons xi xs ih =>
    intro s x2 h i
    cases s with
    | nil => simp [scale_data] at h
    | cons si ss =>
      simp only [scale_data] at h
      cases hrest : scale_data xs ss with
      | none => rw [hrest] at h; simp at h
      | some rest =>
        rw [hrest] at h
        simp only [Option.map] at h
        cases h
        cases i with
        | zero => simp
        | succ n => simpa using ih ss rest hrest n

theorem scale_unscale :
    ∀ (xss : List (List ℚ)) (s : List ℚ), xss.length ≤ s.length →
      (∀ q ∈ s, q ≠ 0) →
      List.zipWith (fun xi si => xi.map (fun q => q * si))
        (List.zipWith (fun xi si => xi.map (fun q => q * si)) xss s)
        (s.map (fun q => q⁻¹)) = xss := by
  intro xss
  induction xss with
  | nil => intro s _ _; simp
  | cons xi xs ih =>
    intro s hs hnz
    cases s with
    | nil => simp at hs
    | cons si ss =>
      have hsi : si ≠ 0 := hnz si (List.mem_cons_self si ss)
      have hss : ∀ q ∈ ss, q ≠ 0 := fun q hq => hnz q (List.mem_cons_of_mem si hq)
      simp only [List.length_cons, Nat.add_le_add_iff_right] at hs
      simp only [List.map_cons, List.zipWith, List.map_map, ih ss hs hss,
        List.cons.injEq, and_true]
      have hq : ∀ q : ℚ, q * si * si⁻¹ = q := fun q => mul_inv_cancel_right₀ hsi q
      simp [Function.comp_def, hq]

/-! ## The claims -/

/-- Claim C1: when `--invplot` is `x` or `b`, every x value of every series
is replaced by its reciprocal; when it is `y` or `b`, every y value and
every error value is replaced by its reciprocal; a zero input yields
infinity (the transform stays total — no error is raised). -/
theorem claim_C1 : ∀ x y e : List (List RVal),
    (applyInvplot "x" x y e = (x.map (List.map recip), y, e)) ∧
    (applyInvplot "y" x y e = (x, y.map (List.map recip), e.map (List.map recip))) ∧
    (applyInvplot "b" x y e =
      (x.map (List.map recip), y.map (List.map recip), e.map (List.map recip))) ∧
    recip (RVal.fin 0) = RVal.posInf := by
  intro x y e
  have hxy : ("x" : String) ≠ "y" := by decide
  have hxb : ("x" : String) ≠ "b" := by decide
  have hyx : ("y" : String) ≠ "x" := by decide
  have hyb : ("y" : String) ≠ "b" := by decide
  refine ⟨?_, ?_, ?_, rfl⟩ <;> simp [applyInvplot, hxy, hxb, hyx, hyb]

/-- Claim C7: the reciprocal transform is involutive on series with no zero
value; at a zero input the first application yields infinity. -/
theorem claim_C7 :
    (∀ l : List ℚ, (∀ q ∈ l, q ≠ 0) →
      ((l.map RVal.fin).map recip).map recip = l.map RVal.fin) ∧
    recip (RVal.fin 0) = RVal.posInf := by
  constructor
  · intro l hl
    induction l with
    | nil => rfl
    | cons q qs ih =>
      have hq : q ≠ 0 := hl q (List.mem_cons_self q qs)
      have hqs : ∀ r ∈ qs, r ≠ 0 := fun r hr => hl r (List.mem_cons_of_mem q hr)
      have hinv : (q⁻¹ : ℚ) ≠ 0 := inv_ne_zero hq
      simp only [List.map_cons, recip, if_neg hq, if_neg hinv, inv_inv, ih hqs]
  · rfl

/-- Claim C7 witness: a concrete zero-free series round-trips. -/
theorem claim_C7_witness :
    ((([2, -3] : List ℚ).map RVal.fin).map recip).map recip =
      ([2, -3] : List ℚ).map RVal.fin :=
  claim_C7.1 [2, -3] (by decide)

/-- Claim C8: ingestion is total only on files whose non-final lines are all
nonempty — an empty line before the final one makes `read_in_data` raise an
uncaught `IndexError` (embedded as `none`) at the `row[0]` comment test,
while a file with no empty interior line always gets past that test. -/
theorem claim_C8 :
    (∀ (content : List Char) (flag : String),
      [] ∈ rawLines content → read_one_file content flag = none) ∧
    (∀ rows : List (List Char), [] ∉ rows →
      ∃ rows2, strip_comments rows = some rows2) := by
  constructor
  · intro content flag hmem
    have hsc : strip_comments (rawLines content) = none := by
      unfold strip_comments
      rw [if_neg]
      simp only [List.all_eq_true, decide_eq_true_eq, not_forall]
      exact ⟨[], hmem, fun h => h rfl⟩
    simp [read_one_file, hsc]
  · intro rows hrows
    have hall : rows.all (fun r => decide (r ≠ [])) = true := by
      simp only [List.all_eq_true, decide_eq_true_eq]
      intro r hr hrnil
      exact hrows (hrnil ▸ hr)
    unfold strip_comments
    rw [if_pos hall]
    exact ⟨_, rfl⟩

/-- Claim C8 witness: a file with an empty interior line is rejected, and a
comment-only line list with no empty line gets past the comment test. -/
theorem claim_C8_witness :
    read_one_file ("1 2\n\n3 4\n".toList) "n" = none ∧
    ∃ rows2, strip_comments [['#'], ['1']] = some rows2 :=
  ⟨claim_C8.1 ("1 2\n\n3 4\n".toList) "n" (by decide),
   claim_C8.2 [['#'], ['1']] (by decide)⟩

/-- Claim C9: ingestion works on exactly the text before the file's last
newline: for a file `a ++ "\n" ++ b` whose tail `b` has no further newline,
the line list is that of `a` alone (an unterminated final line `b` is
silently dropped; `b = ""` for a newline-terminated file, which loses only
the empty terminator), and a file with no newline at all yields no lines. -/
theorem claim_C9 :
    (∀ a b : List Char, '\n' ∉ b →
      rawLines (a ++ '\n' :: b) = splitLines a) ∧
    (∀ c : List Char, '\n' ∉ c → rawLines c = []) := by
  constructor
  · intro a b hb
    unfold rawLines
    rw [splitLines_append_newline, splitLines_no_newline b hb,
      List.dropLast_concat]
  · intro c hc
    unfold rawLines
    rw [splitLines_no_newline c hc]
    rfl

/-- Claim C9 witness: `"1 2\n3 4"` keeps only the line before the newline;
`"5 6"` (no newline) keeps nothing. -/
theorem claim_C9_witness :
    rawLines ("1 2".toList ++ '\n' :: "3 4".toList) = splitLines ("1 2".toList) ∧
    rawLines ("5 6".toList) = [] :=
  ⟨claim_C9.1 ("1 2".toList) ("3 4".toList) (by decide),
   claim_C9.2 ("5 6".toList) (by decide)⟩

/-- Claim C3: for a file whose surviving lines (after dropping the final
segment and the `@`/`#` comment lines) number `N` and all parse, ingestion
with the error flag off yields x and y sequences of length `N` and an error
sequence of `N` zeros. -/
theorem claim_C3 :
    ∀ (content : List Char) (flag : String) (rows : List (List Char))
      (d : SeriesData),
      flag ≠ "y" →
      strip_comments (rawLines content) = some rows →
      read_one_file content flag = some d →
      d.xs.length = rows.length ∧ d.ys.length = rows.length ∧
        d.es = List.replicate rows.length 0 := by
  intro content flag rows d hflag hrows hread
  simp only [read_one_file, hrows] at hread
  cases hx : mapO (fun r => (r.get? 0).bind parseFloat) (rows.map tokenize) with
  | none => rw [hx] at hread; simp at hread
  | some xs =>
    cases hy : mapO (fun r => (r.get? 1).bind parseFloat) (rows.map tokenize) with
    | none => rw [hx, hy] at hread; simp at hread
    | some ys =>
      rw [hx, hy] at hread
      simp only [if_neg hflag] at hread
      cases hread
      refine ⟨?_, ?_, ?_⟩
      · simpa using mapO_length _ _ _ hx
      · simpa using mapO_length _ _ _ hy
      · simp

/-- Claim C3 witness: a two-line file with the error flag off. -/
theorem claim_C3_witness :
    (⟨[1, 3], [2, 4], [0, 0]⟩ : SeriesData).xs.length =
        ([['1', ' ', '2'], ['3', ' ', '4']] : List (List Char)).length ∧
      (⟨[1, 3], [2, 4], [0, 0]⟩ : SeriesData).ys.length =
        ([['1', ' ', '2'], ['3', ' ', '4']] : List (List Char)).length ∧
      (⟨[1, 3], [2, 4], [0, 0]⟩ : SeriesData).es =
        List.replicate ([['1', ' ', '2'], ['3', ' ', '4']] : List (List Char)).length 0 :=
  claim_C3 ("1 2\n3 4\n".toList) "n" [['1', ' ', '2'], ['3', ' ', '4']]
    ⟨[1, 3], [2, 4], [0, 0]⟩ (by decide) (by decide) (by decide)

/-- Claim C2: with the error flag `"y"` and a third numeric field on every
row, the ingested error sequence is exactly the parsed third column; with
the flag `"y"` but the third column missing or unparseable on some row, it
silently falls back to all zeros of the series' length; with the flag not
`"y"`, it is all zeros. -/
theorem claim_C2 :
    ∀ (content : List Char) (flag : String) (rows : List (List Char))
      (d : SeriesData),
      strip_comments (rawLines content) = some rows →
      read_one_file content flag = some d →
      ((flag = "y" → ∀ errs,
          mapO (fun r => (r.get? 2).bind parseFloat) (rows.map tokenize) = some errs →
          d.es = errs) ∧
       (flag = "y" →
          mapO (fun r => (r.get? 2).bind parseFloat) (rows.map tokenize) = none →
          d.es = List.replicate rows.length 0) ∧
       (flag ≠ "y" → d.es = List.replicate rows.length 0)) := by
  intro content flag rows d hrows hread
  simp only [read_one_file, hrows] at hread
  cases hx : mapO (fun r => (r.get? 0).bind parseFloat) (rows.map tokenize) with
  | none => rw [hx] at hread; simp at hread
  | some xs =>
    cases hy : mapO (fun r => (r.get? 1).bind parseFloat) (rows.map tokenize) with
    | none => rw [hx, hy] at hread; simp at hread
    | some ys =>
      rw [hx, hy] at hread
      cases he2 : mapO (fun r => (r.get? 2).bind parseFloat) (rows.map tokenize) with
      | none =>
        rw [he2] at hread
        cases hread
        refine ⟨?_, ?_, ?_⟩
        · intro hfy errs herrs
          cases herrs
        · intro hfy _
          subst hfy
          simp
        · intro hflag
          simp [if_neg hflag]
      | some l =>
        rw [he2] at hread
        cases hread
        refine ⟨?_, ?_, ?_⟩
        · intro hfy errs herrs
          cases herrs
          subst hfy
          simp
        · intro hfy hnone
          cases hnone
        · intro hflag
          simp [if_neg hflag]

/-- Claim C2 witness: a file with a full third column yields it as the error
sequence; the same rows without a third column fall back to zeros. -/
theorem claim_C2_witness :
    (⟨[1, 4], [2, 5], [3, 6]⟩ : SeriesData).es = [3, 6] ∧
      (⟨[1, 4], [2, 5], [0, 0]⟩ : SeriesData).es =
        List.replicate ([['1', ' ', '2'], ['4', ' ', '5']] : List (List Char)).length 0 ∧
      (⟨[1, 4], [2, 5], [0, 0]⟩ : SeriesData).es =
        List.replicate ([['1', ' ', '2'], ['4', ' ', '5']] : List (List Char)).length 0 :=
  ⟨(claim_C2 ("1 2 3\n4 5 6\n".toList) "y"
      [['1', ' ', '2', ' ', '3'], ['4', ' ', '5', ' ', '6']]
      ⟨[1, 4], [2, 5], [3, 6]⟩ (by decide) (by decide)).1 rfl [3, 6] (by decide),
   (claim_C2 ("1 2\n4 5\n".toList) "y" [['1', ' ', '2'], ['4', ' ', '5']]
      ⟨[1, 4], [2, 5], [0, 0]⟩ (by decide) (by decide)).2.1 rfl (by decide),
   (claim_C2 ("1 2\n4 5\n".toList) "n" [['1', ' ', '2'], ['4', ' ', '5']]
      ⟨[1, 4], [2, 5], [0, 0]⟩ (by decide) (by decide)).2.2 (by decide)⟩

/-- Claim C6: the scale transform is linear — scaling every series by its
(nonzero) factor and then by the inverse factor restores the original
values exactly; and when y is scaled, each series' error values are
multiplied by the same per-file factor. -/
theorem claim_C6 :
    (∀ (xss : List (List ℚ)) (s : List ℚ),
      xss.length ≤ s.length → (∀ q ∈ s, q ≠ 0) →
      (scale_data xss s).bind
        (fun m => scale_data m (s.map (fun q => q⁻¹))) = some xss) ∧
    (∀ (s : List ℚ) (y e y2 e2 : List (List ℚ)),
      applyScale (some s) y e = some (y2, e2) →
      scale_data y s = some y2 ∧ scale_data e s = some e2 ∧
      ∀ (i : ℕ) (si : ℚ) (ei : List ℚ),
        s.get? i = some si → e.get? i = some ei →
        e2.get? i = some (ei.map (fun q => q * si))) := by
  constructor
  · intro xss s hlen hnz
    rw [scale_data_some xss s hlen]
    have hlen2 : (List.zipWith (fun xi si => xi.map (fun q => q * si)) xss s).length
        ≤ (s.map (fun q => q⁻¹)).length := by
      simp only [List.length_zipWith, List.length_map]
      exact le_trans (min_le_right _ _) (le_refl _)
    simp only [Option.bind]
    rw [scale_data_some _ _ hlen2, scale_unscale xss s hlen hnz]
  · intro s y e y2 e2 h
    simp only [applyScale] at h
    cases hy : scale_data y s with
    | none => rw [hy] at h; simp at h
    | some y3 =>
      cases he : scale_data e s with
      | none => rw [hy, he] at h; simp at h
      | some e3 =>
        rw [hy, he] at h
        cases h
        refine ⟨rfl, rfl, ?_⟩
        intro i si ei hsi hei
        rw [scale_data_get? e s _ he i, hei, hsi]
        simp

/-- Claim C4: render-mode priority per series — error-bar when the series'
error flag is `"y"`, else histogram-bar when the global `--hist` flag is
`"y"`, else plain line/marker plotting. -/
theorem claim_C4 :
    ∀ (errplt : List String) (histplt : String) (color ecolor : List String)
      (x y e : List (List ℚ)) (i : ℕ) (cmd : DrawCmd) (ef : String),
      renderSeries errplt histplt color ecolor x y e i = some cmd →
      errplt.get? i = some ef →
      ((ef = "y" → cmd.mode = DrawMode.errorbar) ∧
       (ef ≠ "y" → histplt = "y" → cmd.mode = DrawMode.histbar) ∧
       (ef ≠ "y" → histplt ≠ "y" → cmd.mode = DrawMode.line)) := by
  intro errplt histplt color ecolor x y e i cmd ef h hef
  simp only [renderSeries, hef] at h
  refine ⟨?_, ?_, ?_⟩
  · intro h1
    rw [if_pos h1] at h
    split at h <;> cases h <;> rfl
  · intro h1 h2
    rw [if_neg h1, if_pos h2] at h
    split at h
    · split at h <;> cases h <;> rfl
    · cases h
  · intro h1 h2
    rw [if_neg h1, if_neg h2] at h
    split at h <;> cases h <;> rfl

/-- Claim C4 witness: a series with the error flag on is drawn in error-bar
mode. -/
theorem claim_C4_witness :
    (("y" : String) = "y" →
      (⟨DrawMode.errorbar, "black", some "magenta", none⟩ : DrawCmd).mode =
        DrawMode.errorbar) ∧
    (("y" : String) ≠ "y" → ("n" : String) = "y" →
      (⟨DrawMode.errorbar, "black", some "magenta", none⟩ : DrawCmd).mode =
        DrawMode.histbar) ∧
    (("y" : String) ≠ "y" → ("n" : String) ≠ "y" →
      (⟨DrawMode.errorbar, "black", some "magenta", none⟩ : DrawCmd).mode =
        DrawMode.line) :=
  claim_C4 ["y"] "n" ["black"] ["magenta"] [[1]] [[2]] [[0]] 0
    ⟨DrawMode.errorbar, "black", some "magenta", none⟩ "y" (by decide) (by decide)

/-- Claim C5: a negative smoothing factor (the default) draws no overlay;
a non-negative factor fits the series sorted by x and draws a solid line in
the series' color through exactly 100 evenly spaced points spanning
[min x, max x]. -/
theorem claim_C5 :
    ∀ (f : ℚ) (c : String) (xi yi : List ℚ),
      (f < 0 → splineOverlay f c xi yi = some none) ∧
      (∀ a b : ℚ, 0 ≤ f → listMin xi = some a → listMax xi = some b →
        ∃ cmd : SplineCmd,
          splineOverlay f c xi yi = some (some cmd) ∧
          cmd.pts = sortByX (xi.zip yi) ∧
          List.Sorted leX cmd.pts ∧
          List.Perm cmd.pts (xi.zip yi) ∧
          cmd.s = f ∧ cmd.linestyle = "-" ∧ cmd.color = c ∧
          cmd.evalXs.length = 100 ∧
          (∀ k : ℕ, k < 100 →
            cmd.evalXs.get? k = some (a + (b - a) * k / 99)) ∧
          cmd.evalXs.get? 0 = some a ∧
          cmd.evalXs.get? 99 = some b) := by
  intro f c xi yi
  have hgen : ∀ a b : ℚ, ∀ k : ℕ, k < 100 →
      (linspace a b 100).get? k = some (a + (b - a) * k / 99) := by
    intro a b k hk
    simp only [linspace, if_neg (by norm_num : (100 : ℕ) ≠ 1)]
    rw [List.get?_map, List.get?_range hk]
    simp only [Option.map]
    norm_num
  constructor
  · intro hneg
    have hnle : ¬ (0 ≤ f) := not_le.mpr hneg
    simp [splineOverlay, hnle]
  · intro a b h0 hmin hmax
    refine ⟨⟨sortByX (xi.zip yi), f, linspace a b 100, "-", c⟩,
      ?_, rfl, ?_, ?_, rfl, rfl, rfl, ?_, hgen a b, ?_, ?_⟩
    · simp [splineOverlay, h0, hmin, hmax]
    · exact List.sorted_insertionSort leX _
    · exact List.perm_insertionSort leX _
    · simp [linspace]
    · have h0lt := hgen a b 0 (by norm_num)
      rw [h0lt]
      norm_num
    · have h99 := hgen a b 99 (by norm_num)
      rw [h99]
      congr 1
      push_cast
      ring

/-- Claim C5 witness: `--fit 0.5` on the series x = [2, 1], y = [5, 6] draws
an overlay evaluated on 100 points spanning [1, 2]; `--fit -1` draws none. -/
theorem claim_C5_witness :
    splineOverlay (-1) "red" [2, 1] [5, 6] = some none ∧
    (∃ cmd : SplineCmd,
      splineOverlay (1 / 2) "red" [2, 1] [5, 6] = some (some cmd) ∧
      cmd.pts = sortByX (([2, 1] : List ℚ).zip [5, 6]) ∧
      List.Sorted leX cmd.pts ∧
      List.Perm cmd.pts (([2, 1] : List ℚ).zip [5, 6]) ∧
      cmd.s = 1 / 2 ∧ cmd.linestyle = "-" ∧ cmd.color = "red" ∧
      cmd.evalXs.length = 100 ∧
      (∀ k : ℕ, k < 100 →
        cmd.evalXs.get? k = some (1 + ((2 : ℚ) - 1) * k / 99)) ∧
      cmd.evalXs.get? 0 = some 1 ∧
      cmd.evalXs.get? 99 = some 2) :=
  ⟨(claim_C5 (-1) "red" [2, 1] [5, 6]).1 (by norm_num),
   (claim_C5 (1 / 2) "red" [2, 1] [5, 6]).2 1 2 (by norm_num)
     (by with_unfolding_all decide) (by with_unfolding_all decide)⟩

theorem get?_replicate_lt {α : Type} (a : α) :
    ∀ n i : ℕ, i < n → (List.replicate n a).get? i = some a := by
  intro n
  induction n with
  | zero => intro i h; omega
  | succ m ih =>
    intro i h
    cases i with
    | zero => simp [List.replicate]
    | succ j =>
      simp only [List.replicate, List.get?]
      exact ih j (by omega)

/-- Claim C10: with no `--color` flag the default palette is the fixed
9-name list truncated (not cycled) to `min 9 n` entries, and the default
ecolor list the fixed 6-name list truncated to `min 6 n`; `color[i]` (and
`ecolor[i]` in error-bar or histogram mode) stays in bounds exactly while
the file count fits the palette, and with more files the render loop's
subscript raises an uncaught `IndexError` (embedded as `none`). -/
theorem claim_C10 :
    ∀ n : ℕ,
      (defaultColor n).length = min 9 n ∧
      (defaultEcolor n).length = min 6 n ∧
      (n ≤ 9 → ∀ i, i < n → ((defaultColor n).get? i).isSome) ∧
      (n ≤ 6 → ∀ i, i < n → ((defaultEcolor n).get? i).isSome) ∧
      (∀ x y e : List (List ℚ), 9 < n → x.get? 9 ≠ none → y.get? 9 ≠ none →
        renderSeries (List.replicate n "n") "n" (defaultColor n)
          (defaultEcolor n) x y e 9 = none) ∧
      (∀ x y e : List (List ℚ), 6 < n → x.get? 6 ≠ none → y.get? 6 ≠ none →
        e.get? 6 ≠ none →
        renderSeries (List.replicate n "y") "n" (defaultColor n)
          (defaultEcolor n) x y e 6 = none) ∧
      (∀ x y e : List (List ℚ), 6 < n → x.get? 6 ≠ none → y.get? 6 ≠ none →
        renderSeries (List.replicate n "n") "y" (defaultColor n)
          (defaultEcolor n) x y e 6 = none) := by
  intro n
  have hny : ("n" : String) ≠ "y" := by decide
  have hcollen : (defaultColor n).length = min 9 n := by
    simp only [defaultColor, List.length_take, colorPalette]
    simp only [List.length_cons, List.length_nil]
    omega
  have heclen : (defaultEcolor n).length = min 6 n := by
    simp only [defaultEcolor, List.length_take, ecolorPalette]
    simp only [List.length_cons, List.length_nil]
    omega
  have hecnone : 6 < n → (defaultEcolor n).get? 6 = none := by
    intro h6
    rw [List.get?_eq_none, heclen]
    omega
  refine ⟨hcollen, heclen, ?_, ?_, ?_, ?_, ?_⟩
  · intro hn i hi
    rw [defaultColor, List.get?_take hi]
    have hlen : i < colorPalette.length := by
      simp only [colorPalette, List.length_cons, List.length_nil]
      omega
    rw [List.get?_eq_get hlen]
    rfl
  · intro hn i hi
    rw [defaultEcolor, List.get?_take hi]
    have hlen : i < ecolorPalette.length := by
      simp only [ecolorPalette, List.length_cons, List.length_nil]
      omega
    rw [List.get?_eq_get hlen]
    rfl
  · intro x y e hn hx hy
    obtain ⟨xi, hxi⟩ := Option.ne_none_iff_exists'.mp hx
    obtain ⟨yi, hyi⟩ := Option.ne_none_iff_exists'.mp hy
    have herr : (List.replicate n "n").get? 9 = some "n" :=
      get?_replicate_lt "n" n 9 hn
    have hcol : (defaultColor n).get? 9 = none := by
      rw [List.get?_eq_none, hcollen]
      omega
    simp only [List.get?_eq_getElem?] at herr hxi hyi hcol
    simp [renderSeries, herr, hny, hxi, hyi, hcol]
  · intro x y e hn hx hy he
    obtain ⟨xi, hxi⟩ := Option.ne_none_iff_exists'.mp hx
    obtain ⟨yi, hyi⟩ := Option.ne_none_iff_exists'.mp hy
    obtain ⟨ei, hei⟩ := Option.ne_none_iff_exists'.mp he
    have herr : (List.replicate n "y").get? 6 = some "y" :=
      get?_replicate_lt "y" n 6 hn
    have hec6 := hecnone hn
    simp only [List.get?_eq_getElem?] at herr hxi hyi hei hec6
    simp [renderSeries, herr, hxi, hyi, hei, hec6]
  · intro x y e hn hx hy
    obtain ⟨xi, hxi⟩ := Option.ne_none_iff_exists'.mp hx
    obtain ⟨yi, hyi⟩ := Option.ne_none_iff_exists'.mp hy
    have herr : (List.replicate n "n").get? 6 = some "n" :=
      get?_replicate_lt "n" n 6 hn
    have hec6 := hecnone hn
    simp only [List.get?_eq_getElem?] at herr hxi hyi hec6
    simp [renderSeries, herr, hny, hxi, hyi, hec6]

/-- Claim C10 witness: 10 files overflow the color palette in line mode at
series 9; 7 files overflow the ecolor palette at series 6 in error-bar and
in histogram mode; within the palette sizes the lookups succeed. -/
theorem claim_C10_witness :
    (defaultColor 10).length = min 9 10 ∧
    (defaultEcolor 10).length = min 6 10 ∧
    ((defaultColor 9).get? 8).isSome ∧
    renderSeries (List.replicate 10 "n") "n" (defaultColor 10) (defaultEcolor 10)
      (List.replicate 10 [0]) (List.replicate 10 [0]) (List.replicate 10 [0])
      9 = none ∧
    renderSeries (List.replicate 7 "y") "n" (defaultColor 7) (defaultEcolor 7)
      (List.replicate 7 [0]) (List.replicate 7 [0]) (List.replicate 7 [0])
      6 = none ∧
    renderSeries (List.replicate 7 "n") "y" (defaultColor 7) (defaultEcolor 7)
      (List.replicate 7 [0]) (List.replicate 7 [0]) (List.replicate 7 [0])
      6 = none :=
  ⟨(claim_C10 10).1, (claim_C10 10).2.1,
   (claim_C10 9).2.2.1 (le_refl 9) 8 (by decide),
   (claim_C10 10).2.2.2.2.1 _ _ _ (by decide) (by decide) (by decide),
   (claim_C10 7).2.2.2.2.2.1 _ _ _ (by decide) (by decide) (by decide) (by decide),
   (claim_C10 7).2.2.2.2.2.2 _ _ _ (by decide) (by decide) (by decide)⟩

/-- Claim C6 witness: scaling `[2, 3]` by `4` and back, and a concrete
y-scale application whose error series is scaled by the same factor. -/
theorem claim_C6_witness :
    ((scale_data [[2, 3]] [4]).bind
        (fun m => scale_data m ([4].map (fun q => q⁻¹))) = some [[2, 3]]) ∧
      (([[6]] : List (List ℚ)).get? 0 = some ([3].map (fun q => q * 2))) :=
  ⟨claim_C6.1 [[2, 3]] [4] (by decide) (by decide),
   (claim_C6.2 [2] [[1]] [[3]] [[2]] [[6]]
      (by with_unfolding_all decide)).2.2 0 2 [3] (by decide) (by decide)⟩

end CsvPlot
